import Mathlib

/-!
Shallow embedding of the Omega3D vortex-particle / BEM pipeline
(files under src/: Simulation.cpp, Diffusion.h, FlowFeature.cpp,
main_batch.cpp), with theorems settling the specification claims.

Machine floats of the C++ source are modelled as exact rationals; the
transcendental library calls (std::sqrt, std::sin, std::cos, M_PI) are
passed in as oracle parameters, and components of the repository whose
sources are not present under src/ (Points.h, Surfaces.h, Merge.h,
Reflect.h, VRM.h, BEMHelper.h, MathHelper.h) are either abstracted as
operation parameters or, where a claim needs their behaviour, modelled
from the specification text and marked as such.
-/

namespace Omega3D

/-! ### Simulation stopping state (Simulation.h / Simulation.cpp) -/

/-- The fields of `Simulation` that `Simulation::test_vs_stop` reads
(Simulation.cpp lines 1103-1114): the stop criteria, the step counter,
the clock and the time-step size. -/
structure SimStopState where
  use_max_steps : Bool
  max_steps : Nat
  nstep : Nat
  use_end_time : Bool
  end_time : ℚ
  time : ℚ
  dt : ℚ
deriving Repr, DecidableEq

/-- Embedding of `Simulation::test_vs_stop` (Simulation.cpp:1103-1114): stop when
`using_max_steps() and get_max_steps() == nstep`, or when
`using_end_time() and get_end_time() <= time + 0.5*dt`. -/
def test_vs_stop (s : SimStopState) : Bool :=
  (s.use_max_steps && (s.max_steps == s.nstep)) ||
  (s.use_end_time && decide (s.end_time ≤ s.time + (1/2 : ℚ) * s.dt))

/-! ### Particle batches (Simulation::add_particles, Simulation.cpp:871-921) -/

/-- One collection of the `vort` list: the variant tag (`Points` or not)
together with the flat per-particle float data the collection stores. -/
structure VColl where
  isPoints : Bool
  isInert : Bool
  xs : List ℚ
deriving Repr, DecidableEq

/-- The radius-overwriting loop of `Simulation::add_particles`
(Simulation.cpp:879-882): `for (size_t i=6; i<_invec.size(); i+=7)
_invec[i] = thisvd;`. -/
def set_radii (vd : ℚ) (invec : List ℚ) : List ℚ :=
  invec.mapIdx (fun i v => if i % 7 = 6 then vd else v)

/-- Apply a function to the last collection of a list, as the C++
`coll = vort.back()` mutation does. -/
def updateLast (f : VColl → VColl) : List VColl → List VColl
  | [] => []
  | [c] => [f c]
  | c :: rest => c :: updateLast f rest

/-- The collection-insertion pattern shared by `Simulation::add_particles`
and the shedding blocks of `Diffusion::step`: if no collection exists,
push a new active lagrangian `Points` collection; otherwise append to the
last collection, but only if that collection is `Points`. -/
def add_pts_coll (pts : List ℚ) (vort : List VColl) : List VColl :=
  match vort with
  | [] => [⟨true, false, pts⟩]
  | _ :: _ =>
      updateLast (fun c => if c.isPoints then ⟨c.isPoints, c.isInert, c.xs ++ pts⟩ else c) vort

/-- Embedding of `Simulation::add_particles` (Simulation.cpp:871-921): empty input is a
no-op; otherwise every 7th entry (the radius slot) is overwritten with the
current `vdelta`, and the batch is stored through the collection-insertion
pattern. -/
def add_particles (vd : ℚ) (invec : List ℚ) (vort : List VColl) : List VColl :=
  if invec.length = 0 then vort
  else add_pts_coll (set_radii vd invec) vort

/-- All particle data currently stored across the collections, in order. -/
def storedData (vort : List VColl) : List ℚ :=
  (vort.map VColl.xs).flatten

/-! ### Simulation checks (Simulation.cpp:548-610) -/

/-- One vort collection as seen by the checks: the variant tag and the
value of `Points::get_max_elong()`. -/
structure CheckColl where
  isPoints : Bool
  max_elong : ℚ
deriving Repr, DecidableEq

/-- The fields of `Simulation` read by `check_initialization` and
`check_simulation`: panel and particle counts, the freestream components,
the body-movement and boundary-condition queries, the diffusion toggle,
and the vort collections. -/
structure SimCheckState where
  npanels : Nat
  nparts : Nat
  fs0 : ℚ
  fs1 : ℚ
  fs2 : ℚ
  bodies_move : Bool
  nonzero_bcs : Bool
  diffuse_on : Bool
  vort : List CheckColl
deriving Repr, DecidableEq

/-- The elongation fold of Simulation.cpp:584-592: starting from 0.0, take
the max of `get_max_elong()` over the `Points` collections of `vort`. -/
def maxElong (s : SimCheckState) : ℚ :=
  s.vort.foldl (fun m c => if c.isPoints then max m c.max_elong else m) 0

/-- Embedding of `Simulation::check_initialization` (Simulation.cpp:548-599), with
`std::numeric_limits<float>::epsilon()` passed in as `eps`.  Mirrors the
append order and the early return of the zero-input branch; note that the
zero-freestream test reads only `fs[0]` and `fs[1]`. -/
def check_initialization (eps : ℚ) (s : SimCheckState) : String :=
  let r1 : String :=
    if s.npanels = 0 ∧ s.nparts = 0 then
      "" ++ "No flow features and no bodies. Add one or both, reset, and run.\n"
    else ""
  if s.npanels > 0 ∧ s.nparts = 0 ∧ (s.fs0 * s.fs0 + s.fs1 * s.fs1 < eps) ∧
      ¬ s.bodies_move ∧ ¬ s.nonzero_bcs then
    r1 ++ "No flow features, zero freestream speed, no movement, and no driven boundaries - try adding one of these.\n"
  else
    let r2 : String :=
      if s.npanels > 0 ∧ s.nparts = 0 ∧ ¬ s.diffuse_on then
        r1 ++ "You have a solid body, but no diffusion. It will not shed vorticity. Turn on viscosity or add a flow feature, reset, and run.\n"
      else r1
    let r3 : String :=
      if s.npanels > 21000 then
        r2 ++ "Boundary features have too many panels, program will run out of memory. Reduce Reynolds number or increase time step or both.\n"
      else r2
    if maxElong s > 3/2 then
      r3 ++ "Elongation threshold exceeded! Reset and reduce the time step size.\n"
    else r3

/-- Embedding of `Simulation::check_simulation` (Simulation.cpp:604-610): builds an
empty string and returns it unconditionally. -/
def check_simulation (_s : SimCheckState) : String :=
  ""

/-! ### Batch driver control flow (main_batch.cpp:29-136) -/

/-- The main loop of `main` (main_batch.cpp:88-120), with the per-step
check results and the stop tests abstracted as sequences indexed by the
iteration number, and a fuel bound standing in for non-termination (`none`
means the loop has not exited within `fuel` iterations).  An iteration
first consults the step check: a non-empty message prints an error and
breaks out of the loop; otherwise the step runs and the loop breaks if the
stop test fires.  Either way falling out of the loop reaches the trailing
`return 0`. -/
def main_loop (checks : Nat → String) (stops : Nat → Bool) : Nat → Nat → Option Int
  | 0, _ => none
  | fuel + 1, k =>
      if checks k ≠ "" then some 0
      else if stops k then some 0
      else main_loop checks stops fuel (k + 1)

/-- Embedding of `main` of main_batch.cpp: `-1` when the argument count is not exactly
2 (program name plus one file name), `1` when the initialization check
reports a non-empty message, and otherwise the main loop runs and its fall
through ends at `return 0`. -/
def main_exit (argc : Nat) (init_err : String) (checks : Nat → String)
    (stops : Nat → Bool) (fuel : Nat) : Option Int :=
  if argc ≠ 2 then some (-1)
  else if init_err ≠ "" then some 1
  else main_loop checks stops fuel 0

/-! ### Diffusion configuration state (Diffusion.h:36-110, Simulation.cpp:116-127) -/

/-- The two toggles of `Diffusion` that `set_diffuse`, `set_amr` and
`from_json` manipulate (Diffusion.h:86-89). -/
structure DiffConfig where
  is_inviscid : Bool
  adaptive_radii : Bool
deriving Repr, DecidableEq

/-- The `Diffusion` constructor defaults (Diffusion.h:37-47):
`is_inviscid(false), adaptive_radii(false)`. -/
def DiffConfig.init : DiffConfig :=
  ⟨false, false⟩

/-- Embedding of `Diffusion::set_diffuse` (Diffusion.h:49): `is_inviscid = not _do_diffuse`. -/
def set_diffuse (b : Bool) (c : DiffConfig) : DiffConfig :=
  { c with is_inviscid := !b }

/-- Embedding of `Diffusion::set_amr` (Diffusion.h:106-110): set `adaptive_radii`, and
when enabling it also call `set_diffuse(true)`. -/
def set_amr (b : Bool) (c : DiffConfig) : DiffConfig :=
  let c1 := { c with adaptive_radii := b }
  if b then set_diffuse true c1 else c1

/-- Embedding of `Diffusion::get_diffuse` (Diffusion.h:51): `!is_inviscid`. -/
def get_diffuse (c : DiffConfig) : Bool :=
  !c.is_inviscid

/-- Embedding of `Diffusion::from_json` (Diffusion.h:374-395) restricted to the two
toggles: an optional `viscous` string (diffuse iff it equals "vrm"), then
an optional `adaptiveSize` flag which calls `set_amr(true)` only when
present and true (the PLUGIN_AVRM branch). -/
def diff_from_json (viscous : Option String) (adaptiveSize : Option Bool)
    (c : DiffConfig) : DiffConfig :=
  let c1 := match viscous with
    | some v => set_diffuse (v == "vrm") c
    | none => c
  match adaptiveSize with
  | some true => set_amr true c1
  | _ => c1

/-- The configuration states of the `Diffusion` object reachable through
its public setters: the constructor state, `set_diffuse` (also called with
`false` by `Simulation::set_re_for_ips`, Simulation.cpp:116-119),
`set_amr` (Simulation::set_amr, Simulation.cpp:125-127), and `from_json`. -/
inductive DiffReach : DiffConfig → Prop
  | init : DiffReach DiffConfig.init
  | diffuse (b : Bool) (c : DiffConfig) : DiffReach c → DiffReach (set_diffuse b c)
  | amr (b : Bool) (c : DiffConfig) : DiffReach c → DiffReach (set_amr b c)
  | json (v : Option String) (a : Option Bool) (c : DiffConfig) :
      DiffReach c → DiffReach (diff_from_json v a c)

/-! ### JSON values (nlohmann::json as used by FlowFeature.cpp) -/

/-- The fragment of the JSON value space that the flow-feature parsers
touch: numbers, arrays of numbers, strings and booleans. -/
inductive JVal where
  | num (q : ℚ)
  | arr (l : List ℚ)
  | str (s : String)
  | bool (b : Bool)
deriving Repr, DecidableEq

/-- A JSON object: a key-value list. -/
def JObj := List (String × JVal)

/-- Key lookup, `j.find(key)` / `j["key"]` on a const object. -/
def jlookup (j : JObj) (k : String) : Option JVal :=
  (List.find? (fun p => p.1 == k) j).map (fun p => p.2)

/-- Embedding of `j["key"].get<std::vector<float>>()` for a 3-vector: fails (throws)
unless the key holds an array of at least three numbers. -/
def jgetArr3 (v : Option JVal) : Option (ℚ × ℚ × ℚ) :=
  match v with
  | some (JVal.arr (a :: b :: c :: _)) => some (a, b, c)
  | _ => none

/-- Embedding of `j["key"].get<float>()`: fails (throws) unless the key holds a number. -/
def jgetNum (v : Option JVal) : Option ℚ :=
  match v with
  | some (JVal.num q) => some q
  | _ => none

/-- Embedding of `j.value("key", default)` for a boolean: the default when the key is
absent, the stored boolean when present, failure on a type mismatch. -/
def jgetBoolD (v : Option JVal) (d : Bool) : Option Bool :=
  match v with
  | some (JVal.bool b) => some b
  | some _ => none
  | none => some d

/-! ### VortexBlob feature (FlowFeature.cpp:148-286) -/

/-- The data members of `VortexBlob`: center, strength, radius, softness,
and the inherited `m_enabled`. -/
structure VortexBlob where
  x : ℚ
  y : ℚ
  z : ℚ
  sx : ℚ
  sy : ℚ
  sz : ℚ
  rad : ℚ
  softness : ℚ
  enabled : Bool
deriving Repr, DecidableEq

/-- Embedding of `VortexBlob::from_json` (FlowFeature.cpp:229-241): reads `center`,
`strength`, then the radius from key `rad`, then `softness`, and
`enabled` with default true. -/
def VortexBlob.from_json (j : JObj) : Option VortexBlob := do
  let c ← jgetArr3 (jlookup j "center")
  let s ← jgetArr3 (jlookup j "strength")
  let r ← jgetNum (jlookup j "rad")
  let so ← jgetNum (jlookup j "softness")
  let en ← jgetBoolD (jlookup j "enabled") true
  some ⟨c.1, c.2.1, c.2.2, s.1, s.2.1, s.2.2, r, so, en⟩

/-- Embedding of `VortexBlob::to_json` (FlowFeature.cpp:244-253): writes `type`,
`center`, the radius under key `radius`, `softness`, `strength`,
`enabled`. -/
def VortexBlob.to_json (b : VortexBlob) : JObj :=
  [("type", JVal.str "vortex blob"),
   ("center", JVal.arr [b.x, b.y, b.z]),
   ("radius", JVal.num b.rad),
   ("softness", JVal.num b.softness),
   ("strength", JVal.arr [b.sx, b.sy, b.sz]),
   ("enabled", JVal.bool b.enabled)]

/-! ### The other flow features (FlowFeature.cpp) -/

/-- Oracle bundle for the float library calls of FlowFeature.cpp:
`std::sin`, `std::cos`, `std::sqrt` and the constant `M_PI`, modelled as
unconstrained rational functions since the claims settled here do not
depend on their values. -/
structure MathOps where
  sinQ : ℚ → ℚ
  cosQ : ℚ → ℚ
  sqrtQ : ℚ → ℚ
  piQ : ℚ

/-- Oracle bundle for collaborators whose sources are not under src/:
`normalizeVec` and `branchlessONB` from MathHelper.h, and the Mersenne
twister draws of `BlockOfRandom::init_particles` as a sequence of values
indexed by draw order. -/
structure ExtOps where
  normalizeVec : ℚ × ℚ × ℚ → ℚ × ℚ × ℚ
  branchlessONB : ℚ × ℚ × ℚ → (ℚ × ℚ × ℚ) × (ℚ × ℚ × ℚ)
  rand : Nat → ℚ

/-- C++ float-to-int conversion: truncation toward zero. -/
def truncQ (q : ℚ) : ℤ :=
  if 0 ≤ q then ⌊q⌋ else -⌊-q⌋

/-- The inclusive integer range `lo..hi` of a C++ `for` loop. -/
def intRange (lo hi : ℤ) : List ℤ :=
  (List.range (hi - lo + 1).toNat).map (fun n => lo + (n : ℤ))

/-- Embedding of `j["key"]` read into a C++ `int`: requires an integral number. -/
def jgetNat (v : Option JVal) : Option Nat :=
  match v with
  | some (JVal.num q) => if q.den = 1 ∧ 0 ≤ q.num then some q.num.toNat else none
  | _ => none

/-- Data members of `SingleParticle`. -/
structure SingleParticle where
  x : ℚ
  y : ℚ
  z : ℚ
  sx : ℚ
  sy : ℚ
  sz : ℚ
  enabled : Bool
deriving Repr, DecidableEq

/-- Embedding of `SingleParticle::from_json` (FlowFeature.cpp:120-130). -/
def SingleParticle.from_json (j : JObj) : Option SingleParticle := do
  let c ← jgetArr3 (jlookup j "center")
  let s ← jgetArr3 (jlookup j "strength")
  let en ← jgetBoolD (jlookup j "enabled") true
  some ⟨c.1, c.2.1, c.2.2, s.1, s.2.1, s.2.2, en⟩

/-- Embedding of `SingleParticle::init_particles` (FlowFeature.cpp:95-99): one 7-tuple
when enabled, the empty vector otherwise. -/
def SingleParticle.init_particles (p : SingleParticle) : List ℚ :=
  if p.enabled then [p.x, p.y, p.z, p.sx, p.sy, p.sz, 0] else []

/-- Data members of `BlockOfRandom`. -/
structure BlockOfRandom where
  x : ℚ
  y : ℚ
  z : ℚ
  xsize : ℚ
  ysize : ℚ
  zsize : ℚ
  maxstr : ℚ
  num : Nat
  enabled : Bool
deriving Repr, DecidableEq

/-- Embedding of `BlockOfRandom::from_json` (FlowFeature.cpp:341-353). -/
def BlockOfRandom.from_json (j : JObj) : Option BlockOfRandom := do
  let c ← jgetArr3 (jlookup j "center")
  let s ← jgetArr3 (jlookup j "size")
  let m ← jgetNum (jlookup j "max strength")
  let n ← jgetNat (jlookup j "num")
  let en ← jgetBoolD (jlookup j "enabled") true
  some ⟨c.1, c.2.1, c.2.2, s.1, s.2.1, s.2.2, m, n, en⟩

/-- Embedding of `BlockOfRandom::init_particles` (FlowFeature.cpp:292-318): early
return of the empty vector when disabled, otherwise `num` particles whose
positions and strengths consume six uniform draws each, radius left 0. -/
def BlockOfRandom.init_particles (ext : ExtOps) (b : BlockOfRandom) : List ℚ :=
  if ¬ b.enabled then [] else
  (List.range b.num).flatMap (fun i =>
    [b.x + b.xsize * ext.rand (6*i),
     b.y + b.ysize * ext.rand (6*i + 1),
     b.z + b.zsize * ext.rand (6*i + 2),
     b.maxstr * ext.rand (6*i + 3) / (b.num : ℚ),
     b.maxstr * ext.rand (6*i + 4) / (b.num : ℚ),
     b.maxstr * ext.rand (6*i + 5) / (b.num : ℚ),
     0])

/-- Data members of `ParticleEmitter`. -/
structure ParticleEmitter where
  x : ℚ
  y : ℚ
  z : ℚ
  sx : ℚ
  sy : ℚ
  sz : ℚ
  enabled : Bool
deriving Repr, DecidableEq

/-- Embedding of `ParticleEmitter::from_json` (FlowFeature.cpp:427-437). -/
def ParticleEmitter.from_json (j : JObj) : Option ParticleEmitter := do
  let c ← jgetArr3 (jlookup j "center")
  let s ← jgetArr3 (jlookup j "strength")
  let en ← jgetBoolD (jlookup j "enabled") true
  some ⟨c.1, c.2.1, c.2.2, s.1, s.2.1, s.2.2, en⟩

/-- Embedding of `ParticleEmitter::init_particles` (FlowFeature.cpp:403-405): always
empty. -/
def ParticleEmitter.init_particles (_e : ParticleEmitter) : List ℚ :=
  []

/-- Embedding of `ParticleEmitter::step_particles` (FlowFeature.cpp:408-411): one
7-tuple per step when enabled. -/
def ParticleEmitter.step_particles (e : ParticleEmitter) : List ℚ :=
  if e.enabled then [e.x, e.y, e.z, e.sx, e.sy, e.sz, 0] else []

/-- Data members of `SingularRing`. -/
structure SingularRing where
  x : ℚ
  y : ℚ
  z : ℚ
  nx : ℚ
  ny : ℚ
  nz : ℚ
  majrad : ℚ
  circ : ℚ
  enabled : Bool
deriving Repr, DecidableEq

/-- Embedding of `SingularRing::from_json` (FlowFeature.cpp:516-528). -/
def SingularRing.from_json (j : JObj) : Option SingularRing := do
  let c ← jgetArr3 (jlookup j "center")
  let n ← jgetArr3 (jlookup j "normal")
  let mr ← jgetNum (jlookup j "major radius")
  let ci ← jgetNum (jlookup j "circulation")
  let en ← jgetBoolD (jlookup j "enabled") true
  some ⟨c.1, c.2.1, c.2.2, n.1, n.2.1, n.2.2, mr, ci, en⟩

/-- Embedding of `SingularRing::init_particles` (FlowFeature.cpp:459-495): early return
when disabled, otherwise `ndiam` stations around the ring, each emitting
one particle with tangential strength and radius 0. -/
def SingularRing.init_particles (mo : MathOps) (ext : ExtOps) (ips : ℚ)
    (r : SingularRing) : List ℚ :=
  if ¬ r.enabled then [] else
  let ndiam : ℤ := truncQ (1 + (2 * mo.piQ * r.majrad) / ips)
  let this_ips : ℚ := (2 * mo.piQ * r.majrad) / (ndiam : ℚ)
  let norm := ext.normalizeVec (r.nx, r.ny, r.nz)
  let bs := ext.branchlessONB norm
  let b1 := bs.1
  let b2 := bs.2
  (List.range ndiam.toNat).flatMap (fun i =>
    let theta := 2 * mo.piQ * (i : ℚ) / (ndiam : ℚ)
    let ct := mo.cosQ theta
    let st := mo.sinQ theta
    [r.x + r.majrad * (b1.1 * ct + b2.1 * st),
     r.y + r.majrad * (b1.2.1 * ct + b2.2.1 * st),
     r.z + r.majrad * (b1.2.2 * ct + b2.2.2 * st),
     this_ips * r.circ * (b2.1 * ct - b1.1 * st),
     this_ips * r.circ * (b2.2.1 * ct - b1.2.1 * st),
     this_ips * r.circ * (b2.2.2 * ct - b1.2.2 * st),
     0])

/-- Data members of `ThickRing`. -/
structure ThickRing where
  x : ℚ
  y : ℚ
  z : ℚ
  nx : ℚ
  ny : ℚ
  nz : ℚ
  majrad : ℚ
  minrad : ℚ
  circ : ℚ
  enabled : Bool
deriving Repr, DecidableEq

/-- Embedding of `ThickRing::from_json` (FlowFeature.cpp:672-685). -/
def ThickRing.from_json (j : JObj) : Option ThickRing := do
  let c ← jgetArr3 (jlookup j "center")
  let n ← jgetArr3 (jlookup j "normal")
  let mr ← jgetNum (jlookup j "major radius")
  let mi ← jgetNum (jlookup j "minor radius")
  let ci ← jgetNum (jlookup j "circulation")
  let en ← jgetBoolD (jlookup j "enabled") true
  some ⟨c.1, c.2.1, c.2.2, n.1, n.2.1, n.2.2, mr, mi, ci, en⟩

/-- Embedding of `ThickRing::init_particles` (FlowFeature.cpp:579-651): early return
when disabled; otherwise build the disk template of one azimuthal station
(central particle plus `nlayers-1` rings), then sweep it around `ndiam`
stations. -/
def ThickRing.init_particles (mo : MathOps) (ext : ExtOps) (ips : ℚ)
    (t : ThickRing) : List ℚ :=
  if ¬ t.enabled then [] else
  let nlayers : ℤ := truncQ (1 + t.minrad / ips)
  let disk : List (ℚ × ℚ × ℚ) :=
    (0, 0, 1) :: (List.range' 1 (nlayers - 1).toNat).flatMap (fun l =>
      let thisrad := (l : ℚ) * ips
      let nthislayer : ℤ := truncQ (1 + (2 * mo.piQ * thisrad) / ips)
      (List.range nthislayer.toNat).map (fun i =>
        let phi := 2 * mo.piQ * (i : ℚ) / (nthislayer : ℚ)
        (thisrad * mo.cosQ phi, thisrad * mo.sinQ phi,
         (t.majrad + thisrad * mo.cosQ phi) / t.majrad)))
  let nthisdisk : ℚ := (disk.length : ℚ)
  let ndiam : ℤ := truncQ (1 + (2 * mo.piQ * t.majrad) / ips)
  let this_ips : ℚ := (2 * mo.piQ * t.majrad) / (ndiam : ℚ)
  let norm := ext.normalizeVec (t.nx, t.ny, t.nz)
  let bs := ext.branchlessONB norm
  let b1 := bs.1
  let b2 := bs.2
  (List.range ndiam.toNat).flatMap (fun i =>
    let theta := 2 * mo.piQ * (i : ℚ) / (ndiam : ℚ)
    let st := mo.sinQ theta
    let ct := mo.cosQ theta
    disk.flatMap (fun d =>
      let sscale := d.2.2 * this_ips * t.circ / nthisdisk
      [t.x + (t.majrad + d.1) * (b1.1 * ct + b2.1 * st) + d.2.1 * norm.1,
       t.y + (t.majrad + d.1) * (b1.2.1 * ct + b2.2.1 * st) + d.2.1 * norm.2.1,
       t.z + (t.majrad + d.1) * (b1.2.2 * ct + b2.2.2 * st) + d.2.1 * norm.2.2,
       sscale * (b2.1 * ct - b1.1 * st),
       sscale * (b2.2.1 * ct - b1.2.1 * st),
       sscale * (b2.2.2 * ct - b1.2.2 * st),
       0]))

/-- Embedding of `VortexBlob::init_particles` (FlowFeature.cpp:152-208): early return
when disabled; otherwise scan the cube of lattice indices, keep cells
within the soft radius with a sine-smoothed weight, accumulate the total
weight, and finally scale all strength entries by its reciprocal. -/
def VortexBlob.init_particles (mo : MathOps) (ips : ℚ) (b : VortexBlob) : List ℚ :=
  if ¬ b.enabled then [] else
  let irad : ℤ := truncQ (1 + (b.rad + b.softness / 2) / ips)
  let idxs := intRange (-irad) irad
  let cells := idxs.flatMap (fun i => idxs.flatMap (fun j => idxs.map (fun k => (i, j, k))))
  let res := cells.foldl (fun (acc : List ℚ × ℚ) c =>
    let dr := mo.sqrtQ ((c.1 * c.1 + c.2.1 * c.2.1 + c.2.2 * c.2.2 : ℤ) : ℚ) * ips
    if dr < b.rad + b.softness / 2 then
      let w : ℚ :=
        if dr > b.rad - b.softness / 2 then
          1/2 - 1/2 * mo.sinQ (mo.piQ * (dr - b.rad) / b.softness)
        else 1
      (acc.1 ++ [b.x + ips * (c.1 : ℚ), b.y + ips * (c.2.1 : ℚ), b.z + ips * (c.2.2 : ℚ),
                 b.sx * w, b.sy * w, b.sz * w, 0], acc.2 + w)
    else acc) ([], 0)
  let str_scale := 1 / res.2
  res.1.mapIdx (fun i v => if i % 7 = 3 ∨ i % 7 = 4 ∨ i % 7 = 5 then v * str_scale else v)

/-- The closed set of flow features dispatched by `parse_flow_json`. -/
inductive Feature where
  | single (p : SingleParticle)
  | blob (b : VortexBlob)
  | block (b : BlockOfRandom)
  | emitter (e : ParticleEmitter)
  | sring (r : SingularRing)
  | tring (t : ThickRing)
deriving Repr, DecidableEq

/-- Embedding of `parse_flow_json` (FlowFeature.cpp:27-50): dispatch on the `type`
string to the per-feature `from_json`, ignoring unknown types. -/
def parse_flow (j : JObj) : Option Feature :=
  match jlookup j "type" with
  | some (JVal.str t) =>
      if t = "single particle" then (SingleParticle.from_json j).map Feature.single
      else if t = "vortex blob" then (VortexBlob.from_json j).map Feature.blob
      else if t = "block of random" then (BlockOfRandom.from_json j).map Feature.block
      else if t = "particle emitter" then (ParticleEmitter.from_json j).map Feature.emitter
      else if t = "singular ring" then (SingularRing.from_json j).map Feature.sring
      else if t = "thick ring" then (ThickRing.from_json j).map Feature.tring
      else none
  | _ => none

/-- The inherited `m_enabled` member of a parsed feature. -/
def Feature.enabled : Feature → Bool
  | Feature.single p => p.enabled
  | Feature.blob b => b.enabled
  | Feature.block b => b.enabled
  | Feature.emitter e => e.enabled
  | Feature.sring r => r.enabled
  | Feature.tring t => t.enabled

/-- Virtual dispatch of `FlowFeature::init_particles`. -/
def Feature.init_particles (mo : MathOps) (ext : ExtOps) (ips : ℚ) : Feature → List ℚ
  | Feature.single p => p.init_particles
  | Feature.blob b => b.init_particles mo ips
  | Feature.block b => b.init_particles ext
  | Feature.emitter e => e.init_particles
  | Feature.sring r => r.init_particles mo ext ips
  | Feature.tring t => t.init_particles mo ext ips

/-- Virtual dispatch of `FlowFeature::step_particles`: every feature
except the emitter returns the empty vector (FlowFeature.cpp:102-104,
211-213, 321-323, 408-411, 498-500, 654-656). -/
def Feature.step_particles : Feature → List ℚ
  | Feature.emitter e => e.step_particles
  | _ => []

/-! ### Diffusion step (Diffusion.h:115-297) -/

/-- One triangle panel of a `Surfaces` collection as the shedder reads it:
centroid, outward unit normal, world-frame sheet strength, and area. -/
structure Panel where
  cx : ℚ
  cy : ℚ
  cz : ℚ
  nx : ℚ
  ny : ℚ
  nz : ℚ
  wx : ℚ
  wy : ℚ
  wz : ℚ
  area : ℚ
deriving Repr, DecidableEq

/-- One collection of the `bdry` list: the variant tag (`Surfaces` or not)
and the panels it holds. -/
structure BColl where
  isSurfaces : Bool
  panels : List Panel
deriving Repr, DecidableEq

/-- Modelled from the spec: `Surfaces::represent_as_particles` — the
source file Surfaces.h is not under src/.  Spec section 4.2: for each
panel, produce one particle at the panel centroid displaced along the
outward normal by the offset distance, carrying a vorticity equal to the
panel sheet strength rotated into the world frame times the panel area,
with radius set to the second argument (vdelta), in the 7-tuple batch
format expected by `add_new`. -/
def represent_as_particles (offset radius : ℚ) (panels : List Panel) : List ℚ :=
  panels.flatMap (fun p =>
    [p.cx + offset * p.nx, p.cy + offset * p.ny, p.cz + offset * p.nz,
     p.wx * p.area, p.wy * p.area, p.wz * p.area, radius])

/-- The operations `Diffusion::step` invokes, with their numeric
arguments, in invocation order. -/
inductive DEvent where
  | clearInner (mode : Nat) (thresh cutoff : ℚ)
  | solveBEM
  | shed (offset radius : ℚ)
  | vrmDiffuse
  | reflectInterior
  | mergeOp (overlap thresh : ℚ) (adaptive : Bool)
  | updateMaxStr
deriving Repr, DecidableEq

/-- The `Diffusion` members read by `Diffusion::step` (Diffusion.h:82-102). -/
structure DiffParams where
  is_inviscid : Bool
  adaptive_radii : Bool
  shed_before_diffuse : Bool
  nom_sep_scaled : ℚ
  particle_overlap : ℚ
  merge_thresh : ℚ
deriving Repr, DecidableEq

/-- The collaborator operations of `Diffusion::step` whose sources are not
under src/ (clear_inner_layer from Reflect.h, VRM::diffuse_all,
reflect_interior, merge_operation from Merge.h, Points::update_max_str),
abstracted as functions on the particle collections. -/
structure DiffOps where
  clear_inner : Nat → ℚ → ℚ → List VColl → List VColl
  vrm_diffuse : VColl → VColl
  reflect_interior : List VColl → List VColl
  merge_op : ℚ → ℚ → Bool → List VColl → List VColl
  update_max_str : VColl → VColl

/-- The two shedding blocks of `Diffusion::step` (Diffusion.h:149-186 and
247-285): for each `Surfaces` collection of `bdry`, call
`represent_as_particles(offset, vdelta)` and insert the batch through the
collection-insertion pattern; also record the shed event. -/
def shedAll (offset radius : ℚ) (bdry : List BColl) (vort : List VColl) :
    List VColl × List DEvent :=
  bdry.foldl (fun acc b =>
    if b.isSurfaces then
      (add_pts_coll (represent_as_particles offset radius b.panels) acc.1,
       acc.2 ++ [DEvent.shed offset radius])
    else acc) (vort, [])

/-- Embedding of `Diffusion::step` (Diffusion.h:116-297): early return when inviscid;
otherwise `h_nu = sqrt(dt/re)`, clear-inner at distance `nom_sep_scaled *
h_nu`, BEM solve, optional shedding at `0.01*h_nu`, VRM over each
non-inert `Points` collection, reflect, merge, clear-inner at distance
`vdelta/particle_overlap`, optional shedding at `h_nu*sqrt(4/pi)`, a
second merge when boundaries exist, and a max-strength update per
collection.  Returns the final particle collections and the trace of
operations invoked. -/
def diffStep (ops : DiffOps) (p : DiffParams) (sq : ℚ → ℚ) (piQ dt re vdelta : ℚ)
    (bdry : List BColl) (vort : List VColl) : List VColl × List DEvent :=
  if p.is_inviscid then (vort, []) else
  let h_nu := sq (dt / re)
  let v1 := ops.clear_inner 1 (1 / sq (2 * piQ)) (p.nom_sep_scaled * h_nu) vort
  let ev1 := [DEvent.clearInner 1 (1 / sq (2 * piQ)) (p.nom_sep_scaled * h_nu),
              DEvent.solveBEM]
  let sb := if p.shed_before_diffuse then
      shedAll ((1/100 : ℚ) * h_nu) vdelta bdry v1
    else (v1, [])
  let v2 := sb.1
  let v3 := v2.map (fun c =>
    if c.isInert then c else if c.isPoints then ops.vrm_diffuse c else c)
  let ev3 := (v2.filter (fun c => !c.isInert && c.isPoints)).map
    (fun _ => DEvent.vrmDiffuse)
  let v4 := ops.reflect_interior v3
  let v5 := ops.merge_op p.particle_overlap p.merge_thresh p.adaptive_radii v4
  let v6 := ops.clear_inner 1 (1 / sq (2 * piQ)) (vdelta / p.particle_overlap) v5
  let sa := if ¬ p.shed_before_diffuse then
      shedAll (h_nu * sq (4 / piQ)) vdelta bdry v6
    else (v6, [])
  let v7 := sa.1
  let m2 := if bdry.length > 0 then
      (ops.merge_op p.particle_overlap p.merge_thresh p.adaptive_radii v7,
       [DEvent.mergeOp p.particle_overlap p.merge_thresh p.adaptive_radii])
    else (v7, [])
  let v8 := m2.1
  let v9 := v8.map ops.update_max_str
  (v9, ev1 ++ sb.2 ++ ev3 ++
       [DEvent.reflectInterior,
        DEvent.mergeOp p.particle_overlap p.merge_thresh p.adaptive_radii,
        DEvent.clearInner 1 (1 / sq (2 * piQ)) (vdelta / p.particle_overlap)] ++
       sa.2 ++ m2.2 ++ List.replicate v8.length DEvent.updateMaxStr)

/-- The cutoff distance of a clear-inner event, when the event is one. -/
def DEvent.clearCutoff : DEvent → Option ℚ
  | DEvent.clearInner _ _ cut => some cut
  | _ => none

/-- The (offset, radius) arguments of a shed event, when the event is one. -/
def DEvent.shedArgs : DEvent → Option (ℚ × ℚ)
  | DEvent.shed o r => some (o, r)
  | _ => none

/-- Whether an event is a VRM invocation. -/
def DEvent.isVrm : DEvent → Bool
  | DEvent.vrmDiffuse => true
  | _ => false

/-- The cutoff distances of the clear-inner passes of a trace, in order. -/
def clearCutoffs (tr : List DEvent) : List ℚ :=
  tr.filterMap DEvent.clearCutoff

/-- The arguments of the shed operations of a trace, in order. -/
def shedArgsOf (tr : List DEvent) : List (ℚ × ℚ) :=
  tr.filterMap DEvent.shedArgs

/-- The number of `Surfaces` collections in the boundary list. -/
def countSurf (bdry : List BColl) : Nat :=
  (bdry.filter (fun b => b.isSurfaces)).length

/-! ### Helper lemmas -/

theorem storedData_cons (c : VColl) (l : List VColl) :
    storedData (c :: l) = c.xs ++ storedData l := by
  simp [storedData]

theorem set_radii_length (vd : ℚ) (invec : List ℚ) :
    (set_radii vd invec).length = invec.length := by
  simp [set_radii]

theorem set_radii_get_eq (vd : ℚ) (invec : List ℚ) (i : Nat) (q : ℚ)
    (h : (set_radii vd invec).get? i = some q) (h7 : i % 7 = 6) : q = vd := by
  rw [List.get?_eq_some] at h
  obtain ⟨hi, hget⟩ := h
  have hi' : i < invec.length := by
    have := set_radii_length vd invec
    omega
  unfold set_radii at hget
  rw [List.get_mapIdx invec _ i hi'] at hget
  simp [h7] at hget
  exact hget.symm

theorem storedData_updateLast_pts (pts : List ℚ) :
    ∀ v : List VColl, v ≠ [] →
      storedData (updateLast
        (fun c => if c.isPoints then ⟨c.isPoints, c.isInert, c.xs ++ pts⟩ else c) v) =
        storedData v ++ pts ∨
      storedData (updateLast
        (fun c => if c.isPoints then ⟨c.isPoints, c.isInert, c.xs ++ pts⟩ else c) v) =
        storedData v := by
  intro v
  induction v with
  | nil => intro h; exact absurd rfl h
  | cons c rest ih =>
      intro _
      cases rest with
      | nil =>
          by_cases hp : c.isPoints
          · left; simp [updateLast, hp, storedData]
          · right; simp [updateLast, hp]
      | cons c2 rest2 =>
          have hne : (c2 :: rest2) ≠ ([] : List VColl) := by simp
          rcases ih hne with h | h
          · left
            simp only [updateLast, storedData_cons]
            rw [h]
            simp [storedData_cons, List.append_assoc]
          · right
            simp only [updateLast, storedData_cons]
            rw [h]
            simp [storedData_cons]

/-! ### Claim theorems -/

/-- C1 counterexample: `Simulation::test_vs_stop` compares the step count
with `==`, so a state with `use_max_steps` set and `nstep = 2` strictly
greater than `max_steps = 1` (and no end-time criterion) does not stop,
contradicting the claim that it must return true. -/
theorem C1_counterexample :
    test_vs_stop ⟨true, 1, 2, false, 0, 0, 0⟩ = false ∧
    (⟨true, 1, 2, false, 0, 0, 0⟩ : SimStopState).use_max_steps = true ∧
    (⟨true, 1, 2, false, 0, 0, 0⟩ : SimStopState).nstep >
      (⟨true, 1, 2, false, 0, 0, 0⟩ : SimStopState).max_steps := by
  refine ⟨by decide, rfl, by decide⟩

/-- C1 amended: `Simulation::test_vs_stop` returns true exactly when
(using_max_steps and nstep equals max_steps) or (using_end_time and
t + 0.5*dt has reached end_time); the max-steps comparison is equality,
not at-least. -/
theorem C1_amended_stop_iff (s : SimStopState) :
    test_vs_stop s = true ↔
      ((s.use_max_steps = true ∧ s.nstep = s.max_steps) ∨
       (s.use_end_time = true ∧ s.end_time ≤ s.time + (1/2 : ℚ) * s.dt)) := by
  simp only [test_vs_stop, Bool.or_eq_true, Bool.and_eq_true, beq_iff_eq,
    decide_eq_true_eq]
  constructor
  · rintro (⟨h1, h2⟩ | h) <;> [exact Or.inl ⟨h1, h2.symm⟩; exact Or.inr h]
  · rintro (⟨h1, h2⟩ | h) <;> [exact Or.inl ⟨h1, h2.symm⟩; exact Or.inr h]

/-- C10 counterexample: the state reached by loading a configuration with
`adaptiveSize: true` and then one with `viscous: "none"` (and no
`adaptiveSize` key) is reachable, has adaptive radii on, and reports
diffusion off — so the implication amr-implies-diffuse does not hold in
every reachable configuration state. -/
theorem C10_counterexample :
    DiffReach (diff_from_json (some "none") none
      (diff_from_json none (some true) DiffConfig.init)) ∧
    (diff_from_json (some "none") none
      (diff_from_json none (some true) DiffConfig.init)).adaptive_radii = true ∧
    get_diffuse (diff_from_json (some "none") none
      (diff_from_json none (some true) DiffConfig.init)) = false := by
  refine ⟨DiffReach.json _ _ _ (DiffReach.json _ _ _ DiffReach.init), rfl, rfl⟩

/-- C10 amended: immediately after `set_amr(true)` — called directly or
through a `from_json` whose `adaptiveSize` flag is true, which is
processed after `viscous` — `get_diffuse()` is true and adaptive radii are
set; but a later `set_diffuse(false)` (for example from
`Simulation::set_re_for_ips`) turns diffusion off while leaving
`adaptive_radii` set, so the implication is not an invariant. -/
theorem C10_amended_amr_forces_diffuse :
    (∀ c : DiffConfig, get_diffuse (set_amr true c) = true ∧
      (set_amr true c).adaptive_radii = true) ∧
    (∀ (v : Option String) (c : DiffConfig),
      get_diffuse (diff_from_json v (some true) c) = true ∧
      (diff_from_json v (some true) c).adaptive_radii = true) ∧
    (∀ c : DiffConfig, (set_diffuse false c).adaptive_radii = c.adaptive_radii ∧
      get_diffuse (set_diffuse false c) = false) := by
  refine ⟨fun c => ⟨rfl, rfl⟩, fun v c => ?_, fun c => ⟨rfl, rfl⟩⟩
  cases v <;> exact ⟨rfl, rfl⟩

/-- C6: the round trip fails for every vortex blob, because
`VortexBlob::to_json` stores the radius under key `radius` while
`VortexBlob::from_json` reads key `rad`, which the serialized document
never contains. -/
theorem C6_roundtrip_fails (b : VortexBlob) :
    VortexBlob.from_json (VortexBlob.to_json b) = none := by
  rfl

/-- C6 witness at a concrete blob. -/
theorem C6_roundtrip_fails_witness :
    VortexBlob.from_json (VortexBlob.to_json ⟨0, 0, 0, 1, 0, 0, 1/2, 1/4, true⟩) =
      none :=
  C6_roundtrip_fails ⟨0, 0, 0, 1, 0, 0, 1/2, 1/4, true⟩

/-- C8: with viscosity off (`is_inviscid` true) `Diffusion::step` returns
immediately: the particle collections are returned untouched and no
operation — clear-inner, BEM solve, shed, VRM, reflect or merge — is
invoked (the trace is empty). -/
theorem C8_inviscid_noop (ops : DiffOps) (p : DiffParams) (sq : ℚ → ℚ)
    (piQ dt re vdelta : ℚ) (bdry : List BColl) (vort : List VColl)
    (h : p.is_inviscid = true) :
    diffStep ops p sq piQ dt re vdelta bdry vort = (vort, []) := by
  simp [diffStep, h]

/-- C8 witness at a concrete inviscid configuration. -/
theorem C8_inviscid_noop_witness :
    (⟨true, false, true, 1, 3/2, 1/5⟩ : DiffParams).is_inviscid = true ∧
    diffStep
      ⟨fun _ _ _ v => v, id, id, fun _ _ _ v => v, id⟩
      ⟨true, false, true, 1, 3/2, 1/5⟩ id 1 1 1 1 []
      [⟨true, false, [0, 0, 0, 1, 0, 0, 1]⟩] =
      ([⟨true, false, [0, 0, 0, 1, 0, 0, 1]⟩], []) :=
  ⟨rfl, C8_inviscid_noop _ _ _ _ _ _ _ _ _ rfl⟩

/-- C5 counterexample: a batch of one particle arriving with the nonzero
radius 1/4 is stored with radius vdelta = 3/10 by
`Simulation::add_particles` — the incoming radius is not kept. -/
theorem C5_counterexample :
    storedData (add_particles (3/10) [0, 0, 0, 1, 0, 0, 1/4] []) =
      [0, 0, 0, 1, 0, 0, 3/10] ∧ (3/10 : ℚ) ≠ 1/4 := by
  exact ⟨rfl, by norm_num⟩

/-- C5 amended: `Simulation::add_particles` overwrites the radius entry of
every incoming particle with the current vdelta, unconditionally: whatever
data the call appends to the store, each 7th entry of it equals vdelta. -/
theorem C5_amended_radius_always_vdelta (vd : ℚ) (invec : List ℚ)
    (vort : List VColl) :
    ∃ appended : List ℚ,
      storedData (add_particles vd invec vort) = storedData vort ++ appended ∧
      ∀ i q, appended.get? i = some q → i % 7 = 6 → q = vd := by
  unfold add_particles
  by_cases h0 : invec.length = 0
  · refine ⟨[], ?_, ?_⟩
    · simp [h0]
    · intro i q hq; simp at hq
  · rw [if_neg h0]
    unfold add_pts_coll
    cases vort with
    | nil =>
        refine ⟨set_radii vd invec, ?_, ?_⟩
        · simp [storedData]
        · intro i q hq h7; exact set_radii_get_eq vd invec i q hq h7
    | cons c rest =>
        rcases storedData_updateLast_pts (set_radii vd invec) (c :: rest)
          (by simp) with h | h
        · refine ⟨set_radii vd invec, h, ?_⟩
          intro i q hq h7; exact set_radii_get_eq vd invec i q hq h7
        · refine ⟨[], by simpa using h, ?_⟩
          intro i q hq; simp at hq

/-- C5 amended witness at a concrete call. -/
theorem C5_amended_radius_always_vdelta_witness :
    ∃ appended : List ℚ,
      storedData (add_particles (3/10) [0, 0, 0, 1, 0, 0, 1/4] []) =
        storedData [] ++ appended ∧
      ∀ i q, appended.get? i = some q → i % 7 = 6 → q = (3/10 : ℚ) :=
  C5_amended_radius_always_vdelta (3/10) [0, 0, 0, 1, 0, 0, 1/4] []

theorem string_of_length_zero (b : String) (h : b.length = 0) : b = "" := by
  cases b with
  | mk d =>
      cases d with
      | nil => rfl
      | cons c cs => simp [String.length] at h

theorem string_append_ne_empty (a b : String) (hb : b ≠ "") : a ++ b ≠ "" := by
  intro h
  have hl := congrArg String.length h
  rw [String.length_append] at hl
  have hb0 : b.length ≠ 0 := fun h0 => hb (string_of_length_zero b h0)
  simp at hl
  omega

theorem main_loop_zero (checks : Nat → String) (stops : Nat → Bool) :
    ∀ (fuel k : Nat) (r : Int), main_loop checks stops fuel k = some r → r = 0 := by
  intro fuel
  induction fuel with
  | zero => intro k r h; simp [main_loop] at h
  | succ n ih =>
      intro k r h
      unfold main_loop at h
      by_cases h1 : checks k ≠ ""
      · rw [if_pos h1] at h; exact (Option.some_inj.mp h).symm
      · rw [if_neg h1] at h
        by_cases h2 : stops k = true
        · rw [if_pos h2] at h; exact (Option.some_inj.mp h).symm
        · rw [if_neg h2] at h; exact ih (k + 1) r h

/-- C3 counterexample: a state whose only particle collection reports
elongation 2 (above the 1.5 threshold) still gets an empty message from
the per-step check `Simulation::check_simulation`, and the main loop of
main_batch.cpp therefore does not stop on it but begins another step. -/
theorem C3_counterexample :
    check_simulation ⟨0, 1, 0, 0, 0, false, false, true, [⟨true, 2⟩]⟩ = "" ∧
    maxElong ⟨0, 1, 0, 0, 0, false, false, true, [⟨true, 2⟩]⟩ > 3/2 ∧
    main_loop (fun _ => check_simulation ⟨0, 1, 0, 0, 0, false, false, true, [⟨true, 2⟩]⟩)
      (fun _ => false) 1 0 = none := by
  refine ⟨rfl, ?_, rfl⟩
  norm_num [maxElong]

/-- C3 amended: the elongation-above-1.5 test is performed only by
`Simulation::check_initialization`, which then reports a non-empty error
before the run starts; the per-step `Simulation::check_simulation` always
returns the empty string, so an elongation excess at the end of a step
never stops the main loop. -/
theorem C3_amended_elongation_only_at_init (eps : ℚ) (s : SimCheckState) :
    check_simulation s = "" ∧
    (maxElong s > 3/2 → check_initialization eps s ≠ "") := by
  refine ⟨rfl, fun hm => ?_⟩
  simp only [check_initialization]
  split_ifs <;> (apply string_append_ne_empty; decide)

/-- C3 amended witness at a concrete over-elongated state. -/
theorem C3_amended_elongation_only_at_init_witness :
    check_simulation ⟨0, 1, 0, 0, 0, false, false, true, [⟨true, 2⟩]⟩ = "" ∧
    check_initialization 1 ⟨0, 1, 0, 0, 0, false, false, true, [⟨true, 2⟩]⟩ ≠ "" :=
  ⟨(C3_amended_elongation_only_at_init 1 ⟨0, 1, 0, 0, 0, false, false, true, [⟨true, 2⟩]⟩).1,
   (C3_amended_elongation_only_at_init 1 ⟨0, 1, 0, 0, 0, false, false, true, [⟨true, 2⟩]⟩).2
     (by norm_num [maxElong])⟩

/-- C2 counterexample: when a step check reports an error during the main
loop, `main` breaks out of the loop and falls through to `return 0` — the
exit code is 0, not 1 as the claim states. -/
theorem C2_counterexample :
    main_exit 2 "" (fun _ => "Elongation threshold exceeded!") (fun _ => false) 1 =
      some 0 ∧ (0 : Int) ≠ 1 := by
  exact ⟨rfl, by decide⟩

/-- C2 amended: the batch binary exits with -1 when the argument count is
wrong and with 1 only when the initialization check fails; every other
exit — clean completion, and equally a simulation error reported by a step
check during the main loop, which only breaks the loop — returns 0.
Moreover this source's `Simulation::check_simulation` always returns an
empty string, so no step-check error can actually be reported. -/
theorem C2_amended_exit_codes (argc : Nat) (ie : String) (checks : Nat → String)
    (stops : Nat → Bool) (fuel : Nat) :
    (argc ≠ 2 → main_exit argc ie checks stops fuel = some (-1)) ∧
    (argc = 2 → ie ≠ "" → main_exit argc ie checks stops fuel = some 1) ∧
    (argc = 2 → ie = "" → ∀ r : Int,
      main_exit argc ie checks stops fuel = some r → r = 0) ∧
    (∀ s : SimCheckState, check_simulation s = "") := by
  refine ⟨fun h => ?_, fun h2 hie => ?_, fun h2 hie r hr => ?_, fun _ => rfl⟩
  · simp [main_exit, h]
  · simp [main_exit, h2, hie]
  · rw [main_exit, if_neg (by omega), if_neg (by simp [hie])] at hr
    exact main_loop_zero checks stops fuel 0 r hr

/-- C2 amended witness at concrete calls. -/
theorem C2_amended_exit_codes_witness :
    main_exit 3 "" (fun _ => "") (fun _ => true) 1 = some (-1) ∧
    main_exit 2 "boom" (fun _ => "") (fun _ => true) 1 = some 1 ∧
    (0 : Int) = 0 ∧
    check_simulation ⟨0, 0, 0, 0, 0, false, false, false, []⟩ = "" :=
  ⟨(C2_amended_exit_codes 3 "" (fun _ => "") (fun _ => true) 1).1 (by decide),
   (C2_amended_exit_codes 2 "boom" (fun _ => "") (fun _ => true) 1).2.1 rfl (by decide),
   (C2_amended_exit_codes 2 "" (fun _ => "") (fun _ => true) 1).2.2.1 rfl rfl 0 rfl,
   (C2_amended_exit_codes 2 "" (fun _ => "") (fun _ => true) 1).2.2.2
     ⟨0, 0, 0, 0, 0, false, false, false, []⟩⟩

theorem shedAll_foldl_snd (o r : ℚ) :
    ∀ (bdry : List BColl) (vort : List VColl) (ev : List DEvent),
      (bdry.foldl (fun acc b =>
        if b.isSurfaces then
          (add_pts_coll (represent_as_particles o r b.panels) acc.1,
           acc.2 ++ [DEvent.shed o r])
        else acc) (vort, ev)).2 =
      ev ++ List.replicate (countSurf bdry) (DEvent.shed o r) := by
  intro bdry
  induction bdry with
  | nil => intro vort ev; simp [countSurf]
  | cons b rest ih =>
      intro vort ev
      by_cases hb : b.isSurfaces
      · simp only [List.foldl_cons, if_pos hb]
        rw [ih]
        have : countSurf (b :: rest) = countSurf rest + 1 := by
          simp [countSurf, List.filter_cons, hb]
        rw [this]
        simp [List.replicate_succ, List.append_assoc]
      · simp only [List.foldl_cons, if_neg hb]
        rw [ih]
        have : countSurf (b :: rest) = countSurf rest := by
          simp [countSurf, List.filter_cons, hb]
        rw [this]

theorem shedAll_snd_eq (o r : ℚ) (bdry : List BColl) (vort : List VColl) :
    (shedAll o r bdry vort).2 = List.replicate (countSurf bdry) (DEvent.shed o r) := by
  have := shedAll_foldl_snd o r bdry vort []
  simpa [shedAll] using this

theorem clearCutoffs_eq_nil (tr : List DEvent)
    (h : ∀ e ∈ tr, e.clearCutoff = none) : clearCutoffs tr = [] := by
  simp only [clearCutoffs, List.filterMap_eq_nil_iff]
  exact h

theorem clearCutoffs_sheds (n : Nat) (o r : ℚ) :
    clearCutoffs (List.replicate n (DEvent.shed o r)) = [] := by
  apply clearCutoffs_eq_nil
  intro e he
  rw [List.eq_of_mem_replicate he]
  rfl

theorem clearCutoffs_vrms (l : List VColl) :
    clearCutoffs ((l.filter fun c => !c.isInert && c.isPoints).map
      fun _ => DEvent.vrmDiffuse) = [] := by
  apply clearCutoffs_eq_nil
  intro e he
  rcases List.mem_map.mp he with ⟨_, _, rfl⟩
  rfl

theorem clearCutoffs_upd (n : Nat) :
    clearCutoffs (List.replicate n DEvent.updateMaxStr) = [] := by
  apply clearCutoffs_eq_nil
  intro e he
  rw [List.eq_of_mem_replicate he]
  rfl

/-- C4: in every viscous execution of `Diffusion::step` there are exactly
two Clear-Inner passes, and the second — the one after reflect and merge —
is invoked with cutoff distance `vdelta / particle_overlap`; when the
caller passes `vdelta = particle_overlap * ips` (as `Simulation::step`
does through `get_vdelta()`), that cutoff equals `ips`. -/
theorem C4_second_clear_cutoff (ops : DiffOps) (p : DiffParams) (sq : ℚ → ℚ)
    (piQ dt re vdelta : ℚ) (bdry : List BColl) (vort : List VColl)
    (hv : p.is_inviscid = false) :
    clearCutoffs (diffStep ops p sq piQ dt re vdelta bdry vort).2 =
      [p.nom_sep_scaled * sq (dt / re), vdelta / p.particle_overlap] ∧
    (∀ ips : ℚ, vdelta = p.particle_overlap * ips → p.particle_overlap ≠ 0 →
      vdelta / p.particle_overlap = ips) := by
  constructor
  · simp only [diffStep, hv, Bool.false_eq_true, if_false]
    by_cases hs : p.shed_before_diffuse <;>
    by_cases hb : bdry.length > 0 <;>
    simp [hs, hb, clearCutoffs, List.filterMap_append, List.filterMap_cons,
      DEvent.clearCutoff, shedAll_snd_eq, clearCutoffs_sheds, clearCutoffs_vrms,
      clearCutoffs_upd]
  · intro ips hvd hov
    rw [hvd, mul_div_assoc]
    field_simp

/-- C4 witness at a concrete viscous configuration with one surface. -/
theorem C4_second_clear_cutoff_witness :
    clearCutoffs (diffStep
      ⟨fun _ _ _ v => v, id, id, fun _ _ _ v => v, id⟩
      ⟨false, false, true, 3, 3/2, 1/5⟩ id 3 (1/100) 1 (3/2)
      [⟨true, [⟨0, 0, 0, 0, 0, 1, 1, 0, 0, 1⟩]⟩] []).2 =
      [3/100, 1] ∧
    ((3/2 : ℚ) / (3/2 : ℚ) = 1) := by
  have h := C4_second_clear_cutoff ⟨fun _ _ _ v => v, id, id, fun _ _ _ v => v, id⟩
      ⟨false, false, true, 3, 3/2, 1/5⟩ id 3 (1/100) 1 (3/2)
      [⟨true, [⟨0, 0, 0, 0, 0, 1, 1, 0, 0, 1⟩]⟩] [] rfl
  refine ⟨?_, h.2 1 (by norm_num) (by norm_num)⟩
  rw [h.1]
  norm_num

theorem shedArgsOf_eq_nil (tr : List DEvent)
    (h : ∀ e ∈ tr, e.shedArgs = none) : shedArgsOf tr = [] := by
  simp only [shedArgsOf, List.filterMap_eq_nil_iff]
  exact h

theorem shedArgsOf_sheds (n : Nat) (o r : ℚ) :
    shedArgsOf (List.replicate n (DEvent.shed o r)) = List.replicate n (o, r) := by
  induction n with
  | zero => rfl
  | succ m ih =>
      rw [List.replicate_succ, List.replicate_succ, shedArgsOf, List.filterMap_cons]
      rw [shedArgsOf] at ih
      simp [DEvent.shedArgs, ih]

theorem shedArgsOf_vrms (l : List VColl) :
    shedArgsOf ((l.filter fun c => !c.isInert && c.isPoints).map
      fun _ => DEvent.vrmDiffuse) = [] := by
  apply shedArgsOf_eq_nil
  intro e he
  rcases List.mem_map.mp he with ⟨_, _, rfl⟩
  rfl

theorem shedArgsOf_upd (n : Nat) :
    shedArgsOf (List.replicate n DEvent.updateMaxStr) = [] := by
  apply shedArgsOf_eq_nil
  intro e he
  rw [List.eq_of_mem_replicate he]
  rfl

theorem not_vrm_of_shed_replicate (n : Nat) (o r : ℚ) :
    ∀ e ∈ List.replicate n (DEvent.shed o r), e.isVrm = false := by
  intro e he
  rw [List.eq_of_mem_replicate he]
  rfl

theorem represent_radius_slot (offset radius : ℚ) :
    ∀ (panels : List Panel) (k : Nat), k < panels.length →
      (represent_as_particles offset radius panels).get? (7 * k + 6) = some radius := by
  intro panels
  induction panels with
  | nil => intro k hk; simp at hk
  | cons p rest ih =>
      intro k hk
      rw [represent_as_particles, List.flatMap_cons]
      cases k with
      | zero => rfl
      | succ m =>
          have hlen : ([p.cx + offset * p.nx, p.cy + offset * p.ny,
              p.cz + offset * p.nz, p.wx * p.area, p.wy * p.area,
              p.wz * p.area, radius] : List ℚ).length = 7 := rfl
          rw [List.get?_append_right (by omega)]
          rw [hlen]
          have harith : 7 * (m + 1) + 6 - 7 = 7 * m + 6 := by omega
          rw [harith]
          have := ih m (by simpa using Nat.lt_of_succ_lt_succ (by simpa using hk))
          rw [represent_as_particles] at this
          exact this

theorem storedData_updateLast_of_last (pts : List ℚ) :
    ∀ (v : List VColl) (c : VColl), v.getLast? = some c → c.isPoints = true →
      storedData (updateLast
        (fun c => if c.isPoints then ⟨c.isPoints, c.isInert, c.xs ++ pts⟩ else c) v) =
        storedData v ++ pts := by
  intro v
  induction v with
  | nil => intro c hc; simp at hc
  | cons c0 rest ih =>
      intro c hc hp
      cases rest with
      | nil =>
          simp only [List.getLast?_singleton, Option.some_inj] at hc
          subst hc
          simp [updateLast, hp, storedData]
      | cons c1 rest1 =>
          rw [List.getLast?_cons_cons] at hc
          have := ih c hc hp
          simp only [updateLast, storedData_cons]
          rw [this]
          simp [storedData_cons, List.append_assoc]

theorem add_pts_coll_appends (pts : List ℚ) (v : List VColl)
    (h : v = [] ∨ ∃ c, v.getLast? = some c ∧ c.isPoints = true) :
    storedData (add_pts_coll pts v) = storedData v ++ pts := by
  rcases h with rfl | ⟨c, hc, hp⟩
  · simp [add_pts_coll, storedData]
  · cases v with
    | nil => simp at hc
    | cons c0 rest =>
        simp only [add_pts_coll]
        exact storedData_updateLast_of_last pts (c0 :: rest) c hc hp

/-- C7: in a viscous step with `shed_before_diffuse` true, all shed calls
happen before the VRM passes and use offset `0.01*h_nu`; with the flag
false they happen after the VRM passes and use offset `h_nu*sqrt(4/pi)`;
in both cases one shed per `Surfaces` collection with radius argument
vdelta.  Furthermore the shed batch carries vdelta in every radius slot,
and the batch is appended to the (last `Points`) vortex collection. -/
theorem C7_shed_offsets (ops : DiffOps) (p : DiffParams) (sq : ℚ → ℚ)
    (piQ dt re vdelta : ℚ) (bdry : List BColl) (vort : List VColl)
    (hv : p.is_inviscid = false) :
    (∃ A B : List DEvent,
      (diffStep ops p sq piQ dt re vdelta bdry vort).2 = A ++ B ∧
      (p.shed_before_diffuse = true →
        shedArgsOf A = List.replicate (countSurf bdry)
          ((1/100 : ℚ) * sq (dt / re), vdelta) ∧
        (∀ e ∈ A, e.isVrm = false) ∧ shedArgsOf B = []) ∧
      (p.shed_before_diffuse = false →
        shedArgsOf A = [] ∧ (∀ e ∈ B, e.isVrm = false) ∧
        shedArgsOf B = List.replicate (countSurf bdry)
          (sq (dt / re) * sq (4 / piQ), vdelta))) ∧
    (∀ (offset radius : ℚ) (panels : List Panel) (k : Nat), k < panels.length →
      (represent_as_particles offset radius panels).get? (7 * k + 6) = some radius) ∧
    (∀ (newpts : List ℚ) (v : List VColl),
      (v = [] ∨ ∃ c, v.getLast? = some c ∧ c.isPoints = true) →
      storedData (add_pts_coll newpts v) = storedData v ++ newpts) := by
  refine ⟨?_, represent_radius_slot, add_pts_coll_appends⟩
  simp only [diffStep, hv, Bool.false_eq_true, if_false]
  by_cases hs : p.shed_before_diffuse = true
  · simp only [hs, not_true, ite_true, ite_false, if_true, if_false, eq_self_iff_true,
      List.append_nil, List.nil_append]
    set V1 := ops.clear_inner 1 (1 / sq (2 * piQ)) (p.nom_sep_scaled * sq (dt / re)) vort with hV1
    set V2 := (shedAll ((1/100 : ℚ) * sq (dt / re)) vdelta bdry V1).1 with hV2
    set V3 := V2.map (fun c =>
      if c.isInert then c else if c.isPoints then ops.vrm_diffuse c else c) with hV3
    set V6 := ops.clear_inner 1 (1 / sq (2 * piQ)) (vdelta / p.particle_overlap)
      (ops.merge_op p.particle_overlap p.merge_thresh p.adaptive_radii
        (ops.reflect_interior V3)) with hV6
    refine ⟨[DEvent.clearInner 1 (1 / sq (2 * piQ)) (p.nom_sep_scaled * sq (dt / re)),
        DEvent.solveBEM] ++
        (shedAll ((1/100 : ℚ) * sq (dt / re)) vdelta bdry V1).2,
      ((V2.filter fun c => !c.isInert && c.isPoints).map fun _ => DEvent.vrmDiffuse) ++
        ([DEvent.reflectInterior,
          DEvent.mergeOp p.particle_overlap p.merge_thresh p.adaptive_radii,
          DEvent.clearInner 1 (1 / sq (2 * piQ)) (vdelta / p.particle_overlap)] ++
         ((if bdry.length > 0 then
            [DEvent.mergeOp p.particle_overlap p.merge_thresh p.adaptive_radii] else []) ++
          List.replicate (if bdry.length > 0 then
            (ops.merge_op p.particle_overlap p.merge_thresh p.adaptive_radii V6).length
            else V6.length) DEvent.updateMaxStr)), ?_, ?_, ?_⟩
    · by_cases hb : bdry.length > 0 <;> simp [hb, List.append_assoc]
    · intro _
      refine ⟨?_, ?_, ?_⟩
      · simp [shedArgsOf, List.filterMap_append, DEvent.shedArgs, shedAll_snd_eq,
          shedArgsOf_sheds]
      · intro e he
        rcases List.mem_append.mp he with h1 | h2
        · simp only [List.mem_cons, List.not_mem_nil, or_false] at h1
          rcases h1 with rfl | rfl <;> rfl
        · rw [shedAll_snd_eq] at h2
          exact not_vrm_of_shed_replicate _ _ _ e h2
      · by_cases hb : bdry.length > 0 <;>
        simp [hb, shedArgsOf, List.filterMap_append, DEvent.shedArgs,
          shedArgsOf_vrms, shedArgsOf_upd]
    · intro hcontra
      exact absurd hcontra (by decide)
  · have hs' : p.shed_before_diffuse = false := by
      cases hsb : p.shed_before_diffuse
      · rfl
      · exact absurd hsb hs
    simp only [hs', not_false_iff, ite_true, ite_false, if_true, if_false,
      Bool.false_eq_true, List.append_nil, List.nil_append]
    set V1 := ops.clear_inner 1 (1 / sq (2 * piQ)) (p.nom_sep_scaled * sq (dt / re)) vort with hV1
    set V3 := V1.map (fun c =>
      if c.isInert then c else if c.isPoints then ops.vrm_diffuse c else c) with hV3
    set V6 := ops.clear_inner 1 (1 / sq (2 * piQ)) (vdelta / p.particle_overlap)
      (ops.merge_op p.particle_overlap p.merge_thresh p.adaptive_radii
        (ops.reflect_interior V3)) with hV6
    set V7 := (shedAll (sq (dt / re) * sq (4 / piQ)) vdelta bdry V6).1 with hV7
    refine ⟨[DEvent.clearInner 1 (1 / sq (2 * piQ)) (p.nom_sep_scaled * sq (dt / re)),
        DEvent.solveBEM] ++
        (((V1.filter fun c => !c.isInert && c.isPoints).map fun _ => DEvent.vrmDiffuse) ++
         [DEvent.reflectInterior,
          DEvent.mergeOp p.particle_overlap p.merge_thresh p.adaptive_radii,
          DEvent.clearInner 1 (1 / sq (2 * piQ)) (vdelta / p.particle_overlap)]),
      (shedAll (sq (dt / re) * sq (4 / piQ)) vdelta bdry V6).2 ++
        ((if bdry.length > 0 then
            [DEvent.mergeOp p.particle_overlap p.merge_thresh p.adaptive_radii] else []) ++
         List.replicate (if bdry.length > 0 then
            (ops.merge_op p.particle_overlap p.merge_thresh p.adaptive_radii V7).length
            else V7.length) DEvent.updateMaxStr), ?_, ?_, ?_⟩
    · by_cases hb : bdry.length > 0 <;> simp [hb, List.append_assoc]
    · intro hcontra
      exact absurd hcontra (by decide)
    · intro _
      refine ⟨?_, ?_, ?_⟩
      · simp [shedArgsOf, List.filterMap_append, DEvent.shedArgs, shedArgsOf_vrms]
      · intro e he
        rcases List.mem_append.mp he with h1 | h2
        · rw [shedAll_snd_eq] at h1
          exact not_vrm_of_shed_replicate _ _ _ e h1
        · rcases List.mem_append.mp h2 with h3 | h3
          · by_cases hb : bdry.length > 0
            · rw [if_pos hb] at h3; simp at h3; rw [h3]; rfl
            · rw [if_neg hb] at h3; simp at h3
          · rw [List.eq_of_mem_replicate h3]; rfl
      · by_cases hb : bdry.length > 0 <;>
        simp [hb, shedArgsOf, List.filterMap_append, DEvent.shedArgs, shedAll_snd_eq,
          shedArgsOf_sheds, shedArgsOf_upd]

/-- C7 witness: a shed batch is appended to the last `Points` collection
at a concrete input (the inviscid hypothesis discharged at a concrete
viscous parameter set). -/
theorem C7_shed_offsets_witness :
    storedData (add_pts_coll [5] [⟨true, false, [1]⟩]) =
      storedData [⟨true, false, [1]⟩] ++ [5] :=
  (C7_shed_offsets ⟨fun _ _ _ v => v, id, id, fun _ _ _ v => v, id⟩
    ⟨false, false, true, 3, 3/2, 1/5⟩ id 1 1 1 1 [] [] rfl).2.2
    [5] [⟨true, false, [1]⟩] (Or.inr ⟨⟨true, false, [1]⟩, rfl, rfl⟩)

theorem sp_enabled_default (j : JObj) (x : SingleParticle)
    (h : SingleParticle.from_json j = some x) (hen : jlookup j "enabled" = none) :
    x.enabled = true := by
  simp only [SingleParticle.from_json, hen, jgetBoolD, bind, Option.bind_eq_some,
    Option.some.injEq] at h
  obtain ⟨c, _, s, _, en, hen2, hx⟩ := h
  rw [← hx]
  exact hen2.symm

theorem vb_enabled_default (j : JObj) (x : VortexBlob)
    (h : VortexBlob.from_json j = some x) (hen : jlookup j "enabled" = none) :
    x.enabled = true := by
  simp only [VortexBlob.from_json, hen, jgetBoolD, bind, Option.bind_eq_some,
    Option.some.injEq] at h
  obtain ⟨c, _, s, _, r, _, so, _, en, hen2, hx⟩ := h
  rw [← hx]
  exact hen2.symm

theorem br_enabled_default (j : JObj) (x : BlockOfRandom)
    (h : BlockOfRandom.from_json j = some x) (hen : jlookup j "enabled" = none) :
    x.enabled = true := by
  simp only [BlockOfRandom.from_json, hen, jgetBoolD, bind, Option.bind_eq_some,
    Option.some.injEq] at h
  obtain ⟨c, _, s, _, m, _, n, _, en, hen2, hx⟩ := h
  rw [← hx]
  exact hen2.symm

theorem pe_enabled_default (j : JObj) (x : ParticleEmitter)
    (h : ParticleEmitter.from_json j = some x) (hen : jlookup j "enabled" = none) :
    x.enabled = true := by
  simp only [ParticleEmitter.from_json, hen, jgetBoolD, bind, Option.bind_eq_some,
    Option.some.injEq] at h
  obtain ⟨c, _, s, _, en, hen2, hx⟩ := h
  rw [← hx]
  exact hen2.symm

theorem sr_enabled_default (j : JObj) (x : SingularRing)
    (h : SingularRing.from_json j = some x) (hen : jlookup j "enabled" = none) :
    x.enabled = true := by
  simp only [SingularRing.from_json, hen, jgetBoolD, bind, Option.bind_eq_some,
    Option.some.injEq] at h
  obtain ⟨c, _, n, _, mr, _, ci, _, en, hen2, hx⟩ := h
  rw [← hx]
  exact hen2.symm

theorem tr_enabled_default (j : JObj) (x : ThickRing)
    (h : ThickRing.from_json j = some x) (hen : jlookup j "enabled" = none) :
    x.enabled = true := by
  simp only [ThickRing.from_json, hen, jgetBoolD, bind, Option.bind_eq_some,
    Option.some.injEq] at h
  obtain ⟨c, _, n, _, mr, _, mi, _, ci, _, en, hen2, hx⟩ := h
  rw [← hx]
  exact hen2.symm

/-- C9: for every flow-feature descriptor the optional `enabled` field
defaults to true when absent from the JSON object, and a disabled feature
contributes no particles: its `init_particles` and `step_particles` both
return the empty vector. -/
theorem C9_enabled_default_and_disabled_empty :
    (∀ (j : JObj) (f : Feature), parse_flow j = some f →
      jlookup j "enabled" = none → f.enabled = true) ∧
    (∀ (mo : MathOps) (ext : ExtOps) (ips : ℚ) (f : Feature), f.enabled = false →
      f.init_particles mo ext ips = [] ∧ f.step_particles = []) := by
  constructor
  · intro j f hpf hen
    unfold parse_flow at hpf
    cases hjt : jlookup j "type" with
    | none => rw [hjt] at hpf; cases hpf
    | some v =>
        rw [hjt] at hpf
        cases v with
        | num q => cases hpf
        | arr l => cases hpf
        | bool b => cases hpf
        | str t =>
            dsimp only at hpf
            split_ifs at hpf
            all_goals
              rcases Option.map_eq_some'.mp hpf with ⟨x, hx, rfl⟩
              simp only [Feature.enabled]
              first
                | exact sp_enabled_default j x hx hen
                | exact vb_enabled_default j x hx hen
                | exact br_enabled_default j x hx hen
                | exact pe_enabled_default j x hx hen
                | exact sr_enabled_default j x hx hen
                | exact tr_enabled_default j x hx hen
  · intro mo ext ips f hf
    cases f with
    | single p =>
        simp only [Feature.enabled] at hf
        exact ⟨by simp [Feature.init_particles, SingleParticle.init_particles, hf],
               rfl⟩
    | blob b =>
        simp only [Feature.enabled] at hf
        exact ⟨by simp [Feature.init_particles, VortexBlob.init_particles, hf],
               rfl⟩
    | block b =>
        simp only [Feature.enabled] at hf
        exact ⟨by simp [Feature.init_particles, BlockOfRandom.init_particles, hf],
               rfl⟩
    | emitter e =>
        simp only [Feature.enabled] at hf
        exact ⟨rfl,
               by simp [Feature.step_particles, ParticleEmitter.step_particles, hf]⟩
    | sring r =>
        simp only [Feature.enabled] at hf
        exact ⟨by simp [Feature.init_particles, SingularRing.init_particles, hf],
               rfl⟩
    | tring t =>
        simp only [Feature.enabled] at hf
        exact ⟨by simp [Feature.init_particles, ThickRing.init_particles, hf],
               rfl⟩

/-- C9 witness: a concrete descriptor without an `enabled` key parses to
an enabled feature, and a concrete disabled blob produces no particles. -/
theorem C9_enabled_default_and_disabled_empty_witness :
    (Feature.single ⟨0, 0, 0, 1, 0, 0, true⟩).enabled = true ∧
    (Feature.blob ⟨0, 0, 0, 1, 0, 0, 1, 1, false⟩).init_particles
      ⟨fun _ => 0, fun _ => 0, fun _ => 0, 0⟩
      ⟨fun v => v, fun v => (v, v), fun _ => 0⟩ 1 = [] :=
  ⟨C9_enabled_default_and_disabled_empty.1
    [("type", JVal.str "single particle"),
     ("center", JVal.arr [0, 0, 0]),
     ("strength", JVal.arr [1, 0, 0])]
    (Feature.single ⟨0, 0, 0, 1, 0, 0, true⟩) rfl rfl,
   (C9_enabled_default_and_disabled_empty.2
     ⟨fun _ => 0, fun _ => 0, fun _ => 0, 0⟩
     ⟨fun v => v, fun v => (v, v), fun _ => 0⟩ 1
     (Feature.blob ⟨0, 0, 0, 1, 0, 0, 1, 1, false⟩) rfl).1⟩

end Omega3D
